import Mathlib

/-
Verification of the r53_dns_updater record reconciliation engine.

The definitions below are a shallow embedding of src/r53_dns_updater.py:
  - pySplit / pyStripChar model Python str.split(sep) (single-character
    separator) and str.strip(chars) with a single character.
  - parseIPv4 / parseIPv6 / ip_address / is_global model the CPython
    "ipaddress" standard library calls used by get_public_ip
    (ipaddress.ip_address(s) and the .is_global property).
  - get_public_ip, domain_name, get_current_record, publish_to_sns and
    update_target_record_value are the methods of DynamicDnsRecord.
Machine integers are modelled as Nat / Int (Python ints are unbounded, so
no wrap-around is involved).  Fallible code returns Option / Except, and
the network side effects of update_target_record_value are reified as an
ordered list of Effect values.
-/

set_option maxRecDepth 100000

/-- Decidable equality for Except values, used to evaluate the embedded
fallible functions on concrete inputs. -/
instance {ε α : Type} [DecidableEq ε] [DecidableEq α] : DecidableEq (Except ε α) := fun x y =>
  match x, y with
  | Except.error a, Except.error b =>
    if h : a = b then Decidable.isTrue (by rw [h]) else Decidable.isFalse (by simp [h])
  | Except.ok a, Except.ok b =>
    if h : a = b then Decidable.isTrue (by rw [h]) else Decidable.isFalse (by simp [h])
  | Except.error _, Except.ok _ => Decidable.isFalse (by simp)
  | Except.ok _, Except.error _ => Decidable.isFalse (by simp)

/-- Helper for pySplit: walks the character list, splitting at each
separator occurrence, mirroring Python str.split(sep). -/
def pySplitAux (sep : Char) : List Char → List Char → List String
  | [], acc => [String.mk acc.reverse]
  | c :: rest, acc =>
    if c = sep then String.mk acc.reverse :: pySplitAux sep rest []
    else pySplitAux sep rest (c :: acc)

/-- Model of Python str.split(sep) for a one-character separator: the empty
string splits to [""], separators at the ends produce empty fields. -/
def pySplit (s : String) (sep : Char) : List String :=
  pySplitAux sep s.data []

/-- Model of Python str.strip(c) for a single character c: removes every
leading and every trailing occurrence of c, nothing else. -/
def pyStripChar (c : Char) (s : String) : String :=
  String.mk (((s.data.dropWhile (fun x => x = c)).reverse.dropWhile (fun x => x = c)).reverse)

/-- Candidate normalisation in get_public_ip: response.text.strip(newline)
strips only newline characters from both ends of the response body. -/
def stripNewlines (s : String) : String := pyStripChar '\n' s

/-- Decimal digit test, modelling the _DECIMAL_DIGITS superset check of
CPython ipaddress._parse_octet. -/
def isDecDigit (c : Char) : Bool := decide ('0' ≤ c) && decide (c ≤ '9')

/-- Hexadecimal digit test, modelling the _HEX_DIGITS superset check of
CPython ipaddress._parse_hextet. -/
def isHexDigitCh (c : Char) : Bool :=
  isDecDigit c || (decide ('a' ≤ c) && decide (c ≤ 'f')) || (decide ('A' ≤ c) && decide (c ≤ 'F'))

/-- Numeric value of a decimal digit character. -/
def decDigitVal (c : Char) : Nat := c.toNat - 48

/-- Numeric value of a hexadecimal digit character. -/
def hexDigitVal (c : Char) : Nat :=
  if isDecDigit c then c.toNat - 48
  else if decide ('a' ≤ c) && decide (c ≤ 'f') then c.toNat - 87
  else c.toNat - 55

/-- Value of a decimal digit string, as int(s, 10) on an all-digit string. -/
def decValue (l : List Char) : Nat := l.foldl (fun acc c => acc * 10 + decDigitVal c) 0

/-- Value of a hexadecimal digit string, as int(s, 16) on an all-hex string. -/
def hexValue (l : List Char) : Nat := l.foldl (fun acc c => acc * 16 + hexDigitVal c) 0

/-- Model of CPython ipaddress._parse_octet: only decimal digits, at most
three of them, no leading zero (except "0" itself), value at most 255. -/
def parse_octet (s : String) : Option Nat :=
  let l := s.data
  if l.isEmpty then none
  else if ¬ l.all isDecDigit then none
  else if l.length > 3 then none
  else if l.length > 1 && l.head? == some '0' then none
  else
    let v := decValue l
    if v > 255 then none else some v

/-- Model of CPython ipaddress IPv4Address string parsing: rejects a "/",
splits on dots into exactly four octets and packs them big-endian. -/
def parseIPv4 (s : String) : Option Nat :=
  if s.data.contains '/' then none
  else
    match pySplit s '.' with
    | [a, b, c, d] => do
      let va ← parse_octet a
      let vb ← parse_octet b
      let vc ← parse_octet c
      let vd ← parse_octet d
      pure (((va * 256 + vb) * 256 + vc) * 256 + vd)
    | _ => none

/-- Model of CPython ipaddress._parse_hextet: only hex digits, at most four
of them, and the empty hextet is rejected (int of an empty string fails). -/
def parse_hextet (s : String) : Option Nat :=
  let l := s.data
  if ¬ l.all isHexDigitCh then none
  else if l.length > 4 then none
  else if l.isEmpty then none
  else some (hexValue l)

/-- Packs a run of hextets big-endian, as the shift-and-or loops of CPython
ipaddress._ip_int_from_string. -/
def foldHextets (l : List String) (init : Nat) : Option Nat :=
  l.foldlM (fun acc p => (parse_hextet p).map (fun v => acc * 65536 + v)) init

/-- Model of the embedded-IPv4 step of ipaddress._ip_int_from_string: when
the last colon-separated part contains a dot it is parsed as IPv4 and
replaced by its two hextets. -/
def ipv4_embedded_parts (parts : List String) : Option (List String) :=
  match parts.getLast? with
  | none => none
  | some last =>
    if last.data.contains '.' then
      match parseIPv4 last with
      | none => none
      | some v4 =>
        some (parts.dropLast ++
          [String.mk (Nat.toDigits 16 ((v4 / 65536) % 65536)),
           String.mk (Nat.toDigits 16 (v4 % 65536))])
    else some parts

/-- Positions of empty parts strictly between the first and last part; the
double-colon handling of ipaddress._ip_int_from_string allows at most one. -/
def inner_empty_indices (parts : List String) : List Nat :=
  (List.range parts.length).filter
    (fun i => decide (0 < i) && decide (i + 1 < parts.length) && parts.getD i "#" == "")

/-- Model of the scope-id split of IPv6Address (CPython _split_scope_id):
the address is cut at the first percent sign; the scope id must be
nonempty and must not itself contain a percent sign. -/
def ipv6_split_scope (s : String) : Option String :=
  let addr := s.data.takeWhile (fun c => c ≠ '%')
  let rest := s.data.dropWhile (fun c => c ≠ '%')
  match rest with
  | [] => some s
  | _ :: scope =>
    if scope.isEmpty || scope.contains '%' then none else some (String.mk addr)

/-- Model of CPython ipaddress _ip_int_from_string for IPv6, applied after
scope-id removal. -/
def parseIPv6Core (s : String) : Option Nat :=
    let parts0 := pySplit s ':'
    if parts0.length < 3 then none
    else
      match ipv4_embedded_parts parts0 with
      | none => none
      | some parts =>
        if parts.length > 9 then none
        else
          match inner_empty_indices parts with
          | [] =>
            if parts.length ≠ 8 then none
            else if parts.getD 0 "#" == "" then none
            else if parts.getLast? == some "" then none
            else foldHextets parts 0
          | [i] =>
            let headEmpty := parts.getD 0 "#" == ""
            let lastEmpty := parts.getLast? == some ""
            let hi := if headEmpty then i - 1 else i
            if headEmpty && hi ≠ 0 then none
            else
              let lo0 := parts.length - i - 1
              let lo := if lastEmpty then lo0 - 1 else lo0
              if lastEmpty && lo ≠ 0 then none
              else if hi + lo + 1 > 8 then none
              else
                let skipped := 8 - (hi + lo)
                do
                  let high ← foldHextets (parts.take hi) 0
                  let low ← foldHextets (parts.drop (parts.length - lo)) 0
                  pure (high * 2 ^ (16 * (skipped + lo)) + low)
          | _ => none

/-- Model of CPython ipaddress IPv6Address string parsing: reject the
empty string, split off a scope id, reject a "/", then run the
_ip_int_from_string algorithm. -/
def parseIPv6 (s : String) : Option Nat :=
  if s.data.isEmpty then none
  else
    match ipv6_split_scope s with
    | none => none
    | some addr =>
      if addr.data.contains '/' then none
      else parseIPv6Core addr

/-- An address value as produced by ipaddress.ip_address: either an
IPv4Address or an IPv6Address, carrying the packed integer. -/
inductive IPAddr
  | v4 (ip : Nat)
  | v6 (ip : Nat)
deriving DecidableEq

/-- Model of ipaddress.ip_address(s): try IPv4 first, then IPv6. -/
def ip_address (s : String) : Option IPAddr :=
  match parseIPv4 s with
  | some v => some (IPAddr.v4 v)
  | none =>
    match parseIPv6 s with
    | some v => some (IPAddr.v6 v)
    | none => none

/-- Membership of an address in a network given as base address and prefix
length, over addresses of the given bit width. -/
def in_net (bits ip net prefixLen : Nat) : Bool :=
  ip / 2 ^ (bits - prefixLen) == net / 2 ^ (bits - prefixLen)

/-- The _private_networks table of CPython ipaddress for IPv4 (iana
special-purpose registry: 0.0.0.0/8, 10.0.0.0/8, 127.0.0.0/8,
169.254.0.0/16, 172.16.0.0/12, 192.0.0.0/29, 192.0.0.170/31, 192.0.2.0/24,
192.168.0.0/16, 198.18.0.0/15, 198.51.100.0/24, 203.0.113.0/24, 240.0.0.0/4,
255.255.255.255/32). -/
def ipv4_private_nets : List (Nat × Nat) :=
  [ (0, 8),
    (10 * 16777216, 8),
    (127 * 16777216, 8),
    ((169 * 256 + 254) * 65536, 16),
    ((172 * 256 + 16) * 65536, 12),
    (192 * 16777216, 29),
    (192 * 16777216 + 170, 31),
    (192 * 16777216 + 2 * 256, 24),
    ((192 * 256 + 168) * 65536, 16),
    ((198 * 256 + 18) * 65536, 15),
    (198 * 16777216 + 51 * 65536 + 100 * 256, 24),
    (203 * 16777216 + 113 * 256, 24),
    (240 * 16777216, 4),
    (4294967295, 32) ]

/-- IPv4Address.is_private from CPython ipaddress. -/
def ipv4_is_private (ip : Nat) : Bool :=
  ipv4_private_nets.any (fun nb => in_net 32 ip nb.1 nb.2)

/-- IPv4Address.is_global from CPython ipaddress: not in the shared address
space 100.64.0.0/10 and not private. -/
def ipv4_is_global (ip : Nat) : Bool :=
  !(in_net 32 ip ((100 * 256 + 64) * 65536) 10) && !(ipv4_is_private ip)

/-- The _private_networks table of CPython ipaddress for IPv6 (loopback,
unspecified, v4-mapped, 100::/64, 2001::/23, 2001:2::/48, 2001:db8::/32,
2001:10::/28, fc00::/7, fe80::/10). -/
def ipv6_private_nets : List (Nat × Nat) :=
  [ (1, 128),
    (0, 128),
    (65535 * 2 ^ 32, 96),
    (256 * 2 ^ 112, 64),
    (8193 * 2 ^ 112, 23),
    (8193 * 2 ^ 112 + 2 * 2 ^ 96, 48),
    (8193 * 2 ^ 112 + 3512 * 2 ^ 96, 32),
    (8193 * 2 ^ 112 + 16 * 2 ^ 96, 28),
    (64512 * 2 ^ 112, 7),
    (65152 * 2 ^ 112, 10) ]

/-- IPv6Address.is_private from CPython ipaddress: an IPv4-mapped address
(high 96 bits equal to ::ffff:0:0) delegates to the mapped IPv4 address,
otherwise the iana-ipv6-special-registry table decides. -/
def ipv6_is_private (ip : Nat) : Bool :=
  if ip / 2 ^ 32 == 65535 then ipv4_is_private (ip % 2 ^ 32)
  else ipv6_private_nets.any (fun nb => in_net 128 ip nb.1 nb.2)

/-- IPv6Address.is_global from CPython ipaddress: the negation of
is_private. -/
def ipv6_is_global (ip : Nat) : Bool := !(ipv6_is_private ip)

/-- The .is_global property on the result of ipaddress.ip_address. -/
def is_global : IPAddr → Bool
  | IPAddr.v4 ip => ipv4_is_global ip
  | IPAddr.v6 ip => ipv6_is_global ip

/-- Validity test applied to a candidate inside get_public_ip: the try
block accepts the candidate iff ipaddress.ip_address(candidate) parses and
is_global holds; a ValueError from parsing is caught and counts as failed. -/
def valid_public_ip (s : String) : Bool :=
  match ip_address s with
  | some a => is_global a
  | none => false

/-- Retry loop of DynamicDnsRecord.get_public_ip.  The infinite stream of
HTTP response bodies is the function responses (attempt t reads
responses t); tries is the 1-based attempt counter of the source and
budget counts the remaining allowed retries, i.e. budget = max_tries -
tries, so the Python guard tries >= max_tries is exactly budget = 0.
The candidate check runs before the budget check, exactly as in the
source. -/
def get_public_ip_aux (responses : Nat → String) : Nat → Nat → Except Unit String
  | tries, budget =>
    let candidate := stripNewlines (responses tries)
    if valid_public_ip candidate then Except.ok candidate
    else
      match budget with
      | 0 => Except.error ()
      | b + 1 => get_public_ip_aux responses (tries + 1) b

/-- DynamicDnsRecord.get_public_ip: attempts start at tries = 1, and the
loop raises (modelled as Except.error) once tries >= max_tries with no
valid candidate found. -/
def get_public_ip (responses : Nat → String) (max_tries : Nat) : Except Unit String :=
  get_public_ip_aux responses 1 (max_tries - 1)

/-- Label split used by the domain_name property: target_record.split(dot). -/
def pySplitDot (s : String) : List String := pySplit s '.'

/-- Loop of the domain_name property: test the remaining label list for
exact membership in the valid domain list; on failure delete the leading
label; when the deletion of the leading label fails (empty list) the
source exits fatally, modelled as none. -/
def domain_name_loop (valid_domains : List (List String)) : List String → Option (List String)
  | [] => if [] ∈ valid_domains then some [] else none
  | a :: rest =>
    if (a :: rest) ∈ valid_domains then some (a :: rest)
    else domain_name_loop valid_domains rest

/-- DynamicDnsRecord.domain_name: zones are the hosted zone names (already
without the trailing dot, as produced by r53_hosted_zones), and the result
is the matching label list rejoined with dots. -/
def domain_name (zones : List String) (target_record : String) : Option String :=
  (domain_name_loop (zones.map pySplitDot) (pySplitDot target_record)).map
    (String.intercalate ".")

/-- A ResourceRecord entry of a record set, as returned by the Route53
list_resource_record_sets API. -/
structure ResourceRecord where
  Value : String
deriving DecidableEq

/-- A ResourceRecordSet entry; the source key "Type" is spelled rtype here
because Type is reserved in Lean. -/
structure RecordSet where
  Name : String
  rtype : String
  TTL : Int
  ResourceRecords : List ResourceRecord
deriving DecidableEq

/-- Fatal error raised by get_current_record, mirroring
InvalidRecordTargetError with the offending record name. -/
inductive RecordError
  | invalidRecordTarget (record : String)
deriving DecidableEq

/-- Name normalisation in get_current_record: join(record.Name.split(dot)
minus its final component), i.e. cut off the trailing dot. -/
def normalize_record_name (s : String) : String :=
  String.intercalate "." ((pySplit s '.').dropLast)

/-- The match condition of the scan loop in get_current_record: normalised
name equals the target record and the type is A. -/
def matches_target (target : String) (r : RecordSet) : Bool :=
  normalize_record_name r.Name == target && r.rtype == "A"

/-- The scan loop of get_current_record: each matching record overwrites
our_record_targets and our_record_ttl, so the last match wins. -/
def record_scan (target : String) (record_sets : List RecordSet) :
    List ResourceRecord × Option Int :=
  record_sets.foldl
    (fun acc r => if matches_target target r then (r.ResourceRecords, some r.TTL) else acc)
    ([], none)

/-- DynamicDnsRecord.get_current_record, applied to the full accumulated
record-set listing (the pagination loop only concatenates the pages before
this scan runs).  More than one target value is the fatal
InvalidRecordTargetError; no target value reports the record as absent. -/
def get_current_record (target : String) (record_sets : List RecordSet) :
    Except RecordError (Option String × Option Int) :=
  let scan := record_scan target record_sets
  if scan.1.length > 1 then Except.error (RecordError.invalidRecordTarget target)
  else
    match scan.1 with
    | [] => Except.ok (none, scan.2)
    | v :: _ => Except.ok (some v.Value, scan.2)

/-- The last record of the listing that matches the target; the scan loop
of get_current_record keeps exactly this record. -/
def last_match (target : String) (l : List RecordSet) : Option RecordSet :=
  ((l.filter (matches_target target)).reverse).head?

/-- Python truthiness of an optional integer: None and 0 are falsy. -/
def py_truthy_int : Option Int → Bool
  | none => false
  | some t => t != 0

/-- Python truthiness of an optional string: None and the empty string are
falsy. -/
def py_truthy_str : Option String → Bool
  | none => false
  | some s => s != ""

/-- Outcome of publish_to_sns when it returns normally: the message was
published to the topic in the derived region, or the publish call failed
and the failure was logged and swallowed. -/
inductive SnsOutcome
  | published (region msg : String)
  | publish_failed_logged (region msg : String)
deriving DecidableEq

/-- DynamicDnsRecord.publish_to_sns.  delivery_ok says whether the
underlying sns.publish call succeeds; its failure is caught and logged.
The falsy-argument ValueError and the IndexError from splitting an ARN
with fewer than four colon-separated fields are uncaught, modelled as
Except.error. -/
def publish_to_sns (delivery_ok : Bool) (sns_arn : Option String) (msg : String) :
    Except String SnsOutcome :=
  if py_truthy_str sns_arn = false then
    Except.error "ValueError: publish_to_sns: sns_arn was not provided"
  else
    match (pySplit (sns_arn.getD "") ':').get? 3 with
    | none => Except.error "IndexError: list index out of range"
    | some aws_region =>
      if delivery_ok then Except.ok (SnsOutcome.published aws_region msg)
      else Except.ok (SnsOutcome.publish_failed_logged aws_region msg)

/-- In-memory state of a DynamicDnsRecord instance at the time
update_target_record_value runs: constructor arguments plus the values
produced by get_public_ip and get_current_record. -/
structure ReconcilerState where
  target_record : String
  hosted_zone : String
  sns_arn : Option String
  actual_ip : String
  current_ip : Option String
  current_ttl : Option Int
deriving DecidableEq

/-- The ResourceRecordSet payload of the UPSERT change batch built by
update_target_record_value. -/
structure ChangeRecord where
  name : String
  rtype : String
  ttl : Int
  values : List String
deriving DecidableEq

/-- External calls made by update_target_record_value, in order: the
Route53 change_resource_record_sets write and the SNS notification. -/
inductive Effect
  | change_resource_record_sets (hosted_zone : String) (batch : ChangeRecord)
  | sns_publish (sns_arn msg : String)
deriving DecidableEq

/-- Effective TTL computation at the top of update_target_record_value:
a truthy ttl argument overrides, else a truthy existing TTL is reused,
else the default of 60. -/
def effective_ttl (ttl current_ttl : Option Int) : Int :=
  if py_truthy_int ttl then ttl.getD 0
  else if py_truthy_int current_ttl then current_ttl.getD 0
  else 60

/-- The outdated test of update_target_record_value: the actual IP differs
from the current record value, or else (elif) the desired TTL differs from
the existing value (int compared against int-or-None). -/
def needs_update (s : ReconcilerState) (eff : Int) : Bool :=
  if some s.actual_ip ≠ s.current_ip then true
  else if some eff ≠ s.current_ttl then true
  else false

/-- DynamicDnsRecord.update_target_record_value, returning the ordered
list of external calls it makes: nothing when the record is up to date,
else the UPSERT write, followed by the SNS publish when sns_arn is
truthy. -/
def update_target_record_value (s : ReconcilerState) (ttl : Option Int) : List Effect :=
  let eff := effective_ttl ttl s.current_ttl
  if needs_update s eff then
    Effect.change_resource_record_sets s.hosted_zone
        ⟨s.target_record, "A", eff, [s.actual_ip]⟩ ::
      (if py_truthy_str s.sns_arn then
        [Effect.sns_publish (s.sns_arn.getD "")
          ("IP for DNS record " ++ s.target_record ++ " changed to " ++ s.actual_ip)]
      else [])
  else []

/-- Write-effect recogniser. -/
def is_write : Effect → Bool
  | Effect.change_resource_record_sets _ _ => true
  | _ => false

/-- Notification-effect recogniser. -/
def is_notify : Effect → Bool
  | Effect.sns_publish _ _ => true
  | _ => false

/-- Result of applying the emitted UPSERT (if any) to the external record
state: a later get_current_record sees the written value and TTL; with no
write the external state is unchanged. -/
def apply_effects (s : ReconcilerState) (effs : List Effect) : ReconcilerState :=
  match effs.find? is_write with
  | some (Effect.change_resource_record_sets _ b) =>
    { s with current_ip := b.values.head?, current_ttl := some b.ttl }
  | _ => s

/-- One reconcile pass: run update_target_record_value and fold its write
back into the external record state, as a second run would observe it. -/
def run_reconcile (s : ReconcilerState) (ttl : Option Int) : ReconcilerState :=
  apply_effects s (update_target_record_value s ttl)

/-- The domain_name loop returns none exactly when no valid domain is a
label suffix of the record labels. -/
theorem domain_name_loop_none_iff (valid : List (List String)) :
    ∀ d : List String, (domain_name_loop valid d = none ↔ ∀ z ∈ valid, ¬ z <:+ d)
  | [] => by
    show (if ([] : List String) ∈ valid then some ([] : List String) else none) = none ↔ _
    by_cases h : ([] : List String) ∈ valid
    · rw [if_pos h]
      constructor
      · intro hc; exact absurd hc (by simp)
      · intro hall; exact absurd List.suffix_rfl (hall [] h)
    · rw [if_neg h]
      constructor
      · intro _ z hz hsuf
        exact h ((List.suffix_nil.mp hsuf) ▸ hz)
      · intro _; rfl
  | a :: rest => by
    show (if (a :: rest) ∈ valid then some (a :: rest) else domain_name_loop valid rest) = none ↔ _
    by_cases h : (a :: rest) ∈ valid
    · rw [if_pos h]
      constructor
      · intro hc; exact absurd hc (by simp)
      · intro hall; exact absurd List.suffix_rfl (hall _ h)
    · rw [if_neg h]
      rw [domain_name_loop_none_iff valid rest]
      constructor
      · intro hall z hz hsuf
        rcases List.suffix_cons_iff.mp hsuf with heq | hsuf2
        · exact h (heq ▸ hz)
        · exact hall z hz hsuf2
      · intro hall z hz hsuf
        exact hall z hz (List.suffix_cons_iff.mpr (Or.inr hsuf))

/-- The domain_name loop finds a valid domain that is a label suffix of
the record labels, and among the valid suffixes it is a longest one. -/
theorem domain_name_loop_some (valid : List (List String)) :
    ∀ d r : List String, domain_name_loop valid d = some r →
      r ∈ valid ∧ r <:+ d ∧ ∀ z ∈ valid, z <:+ d → z.length ≤ r.length
  | [] => by
    intro r hr
    rw [show domain_name_loop valid [] =
        (if ([] : List String) ∈ valid then some ([] : List String) else none) from rfl] at hr
    by_cases h : ([] : List String) ∈ valid
    · rw [if_pos h, Option.some.injEq] at hr
      subst hr
      refine ⟨h, List.suffix_rfl, ?_⟩
      intro z _ hsuf
      simpa using List.IsSuffix.length_le hsuf
    · rw [if_neg h] at hr
      exact absurd hr (by simp)
  | a :: rest => by
    intro r hr
    rw [show domain_name_loop valid (a :: rest) =
        (if (a :: rest) ∈ valid then some (a :: rest) else domain_name_loop valid rest)
        from rfl] at hr
    by_cases h : (a :: rest) ∈ valid
    · rw [if_pos h, Option.some.injEq] at hr
      subst hr
      refine ⟨h, List.suffix_rfl, ?_⟩
      intro z _ hsuf
      exact List.IsSuffix.length_le hsuf
    · rw [if_neg h] at hr
      obtain ⟨hmem, hsuf, hmax⟩ := domain_name_loop_some valid rest r hr
      refine ⟨hmem, List.suffix_cons_iff.mpr (Or.inr hsuf), ?_⟩
      intro z hz hzsuf
      rcases List.suffix_cons_iff.mp hzsuf with heq | hzsuf2
      · exact absurd (heq ▸ hz) h
      · exact hmax z hz hzsuf2

/-- C3: zone resolution returns the zone whose name is the longest
dot-label suffix of the record name, found by dropping the leftmost label
one at a time and testing exact equality against the zone set, and fails
(none, the fatal zone-not-found exit) exactly when the labels are
exhausted without a match. -/
theorem domain_name_longest_suffix (zones : List String) (target : String) :
    (domain_name zones target = none ↔
      ∀ z ∈ zones, ¬ (pySplitDot z <:+ pySplitDot target))
  ∧ (∀ r, domain_name zones target = some r →
      ∃ d, d ∈ zones.map pySplitDot ∧ d <:+ pySplitDot target ∧
        r = String.intercalate "." d ∧
        ∀ z ∈ zones, pySplitDot z <:+ pySplitDot target →
          (pySplitDot z).length ≤ d.length) := by
  constructor
  · rw [domain_name, Option.map_eq_none']
    rw [domain_name_loop_none_iff]
    constructor
    · intro hall z hz
      exact hall (pySplitDot z) (List.mem_map_of_mem pySplitDot hz)
    · intro hall d hd
      obtain ⟨z, hz, rfl⟩ := List.mem_map.mp hd
      exact hall z hz
  · intro r hr
    rw [domain_name, Option.map_eq_some'] at hr
    obtain ⟨d, hd, rfl⟩ := hr
    obtain ⟨hmem, hsuf, hmax⟩ := domain_name_loop_some _ _ _ hd
    refine ⟨d, hmem, hsuf, rfl, ?_⟩
    intro z hz hzsuf
    exact hmax (pySplitDot z) (List.mem_map_of_mem pySplitDot hz) hzsuf

/-- Witness for C3 at the zone set of the spec example: the record
host.a.example.com resolves to the more specific zone a.example.com. -/
theorem domain_name_longest_suffix_witness :
    ∃ d, d ∈ (["example.com", "a.example.com"].map pySplitDot) ∧
      d <:+ pySplitDot "host.a.example.com" ∧
      "a.example.com" = String.intercalate "." d ∧
      ∀ z ∈ ["example.com", "a.example.com"],
        pySplitDot z <:+ pySplitDot "host.a.example.com" →
          (pySplitDot z).length ≤ d.length :=
  (domain_name_longest_suffix ["example.com", "a.example.com"] "host.a.example.com").2
    "a.example.com" (by decide)

/-- The emitted effect list starts with the write iff the record is out of
date, and is empty otherwise. -/
theorem update_effects_shape (s : ReconcilerState) (ttl : Option Int) :
    ((update_target_record_value s ttl).any is_write = true ↔
      needs_update s (effective_ttl ttl s.current_ttl) = true)
  ∧ (update_target_record_value s ttl = [] ↔
      needs_update s (effective_ttl ttl s.current_ttl) = false) := by
  by_cases h : needs_update s (effective_ttl ttl s.current_ttl)
  · constructor
    · simp [update_target_record_value, h, is_write]
    · simp [update_target_record_value, h]
  · constructor
    · simp only [Bool.not_eq_true] at h
      simp [update_target_record_value, h]
    · simp only [Bool.not_eq_true] at h
      simp [update_target_record_value, h]

/-- The outdated test, restated as the claim states it: address mismatch,
or else (record present) TTL mismatch against the effective TTL. -/
theorem needs_update_iff (tr hz : String) (sns : Option String) (a : String)
    (cip : Option String) (cttl : Option Int) (eff : Int) :
    needs_update ⟨tr, hz, sns, a, cip, cttl⟩ eff = true ↔
      (cip ≠ some a ∨ (¬(cip = none ∧ cttl = none) ∧ cttl ≠ some eff)) := by
  cases cip with
  | none => simp [needs_update]
  | some c =>
    by_cases hc : c = a
    · subst hc
      by_cases ht : cttl = some eff
      · simp [needs_update, ht]
      · have ht2 : some eff ≠ cttl := fun h => ht h.symm
        simp [needs_update, ht2, ht]
    · simp [needs_update, Ne.symm hc, hc]

/-- C1: update_target_record_value issues the UPSERT write iff the resolved
public address differs from the existing record address, or the existing
record exists and its stored TTL differs from the effective TTL; a fully
absent record always triggers the write, and when no update is required the
function emits no effect at all. -/
theorem upsert_iff_needed (tr hz : String) (sns : Option String) (a : String)
    (cip : Option String) (cttl ttl : Option Int) :
    ((update_target_record_value ⟨tr, hz, sns, a, cip, cttl⟩ ttl).any is_write = true ↔
      (cip ≠ some a ∨ (¬(cip = none ∧ cttl = none) ∧ cttl ≠ some (effective_ttl ttl cttl))))
  ∧ (update_target_record_value ⟨tr, hz, sns, a, none, none⟩ ttl).any is_write = true
  ∧ (update_target_record_value ⟨tr, hz, sns, a, cip, cttl⟩ ttl = [] ↔
      ¬(cip ≠ some a ∨ (¬(cip = none ∧ cttl = none) ∧ cttl ≠ some (effective_ttl ttl cttl)))) := by
  refine ⟨?_, ?_, ?_⟩
  · rw [(update_effects_shape _ ttl).1]
    exact needs_update_iff tr hz sns a cip cttl _
  · rw [(update_effects_shape _ ttl).1]
    rw [needs_update_iff tr hz sns a none none _]
    simp
  · rw [(update_effects_shape _ ttl).2]
    rw [← needs_update_iff tr hz sns a cip cttl (effective_ttl ttl cttl)]
    simp

/-- Witness for C1: a record that does not yet exist triggers the write. -/
theorem upsert_iff_needed_witness :
    (update_target_record_value
      ⟨"host.example.com", "Z1", none, "1.2.3.4", none, none⟩ none).any is_write = true :=
  (upsert_iff_needed "host.example.com" "Z1" none "1.2.3.4" none none none).2.1

/-- C2 counterexample: with a caller-supplied TTL override equal to 0 and
an existing record with TTL 300 and an unchanged address, the claim
demands effective TTL 0 and a write carrying it; the code instead treats
the 0 override as absent, computes effective TTL 300, and issues no write. -/
theorem ttl_override_zero_cex :
    effective_ttl (some 0) (some 300) = 300
  ∧ effective_ttl (some 0) (some 300) ≠ 0
  ∧ update_target_record_value
      ⟨"host.example.com", "Z1", none, "1.2.3.4", some "1.2.3.4", some 300⟩ (some 0) = [] := by
  decide

/-- C2 (amended): TTL precedence under Python truthiness: a nonzero
override wins; otherwise a nonzero existing TTL; otherwise 60. A TTL-only
mismatch (same address, nonzero override differing from the stored TTL)
triggers the write carrying the override TTL and the unchanged address. -/
theorem ttl_precedence_amended (t c : Int) (cur : Option Int) (tr hz a : String) :
    (t ≠ 0 → effective_ttl (some t) cur = t)
  ∧ (c ≠ 0 → effective_ttl none (some c) = c ∧ effective_ttl (some 0) (some c) = c)
  ∧ (effective_ttl none none = 60 ∧ effective_ttl (some 0) none = 60
      ∧ effective_ttl none (some 0) = 60 ∧ effective_ttl (some 0) (some 0) = 60)
  ∧ (t ≠ 0 → t ≠ c →
      update_target_record_value ⟨tr, hz, none, a, some a, some c⟩ (some t) =
        [Effect.change_resource_record_sets hz ⟨tr, "A", t, [a]⟩]) := by
  refine ⟨?_, ?_, by decide, ?_⟩
  · intro ht
    simp [effective_ttl, py_truthy_int, ht]
  · intro hcn
    constructor
    · simp [effective_ttl, py_truthy_int, hcn]
    · simp [effective_ttl, py_truthy_int, hcn]
  · intro ht htc
    have heff : effective_ttl (some t) (some c) = t := by
      simp [effective_ttl, py_truthy_int, ht]
    have hneed : needs_update ⟨tr, hz, none, a, some a, some c⟩ t = true := by
      have : some t ≠ some c := by simpa using htc
      simp [needs_update, this]
    simp [update_target_record_value, heff, hneed, py_truthy_str]

/-- Witness for C2 (amended): override 120 against stored TTL 300 with an
unchanged address writes the record with TTL 120 and the same address. -/
theorem ttl_precedence_amended_witness :
    update_target_record_value
      ⟨"host.example.com", "Z1", none, "1.2.3.4", some "1.2.3.4", some 300⟩ (some 120) =
      [Effect.change_resource_record_sets "Z1" ⟨"host.example.com", "A", 120, ["1.2.3.4"]⟩] :=
  (ttl_precedence_amended 120 300 (some 300) "host.example.com" "Z1" "1.2.3.4").2.2.2
    (by decide) (by decide)

/-- C10: TTL truthiness: an override of 0 behaves exactly like no
override, and a stored TTL of 0 behaves exactly like an absent TTL, so
with no override and a stored TTL of 0 the default 60 is used and the
TTL mismatch against the stored 0 triggers the write. -/
theorem ttl_truthiness (cur ttl : Option Int) (tr hz a : String) :
    effective_ttl (some 0) cur = effective_ttl none cur
  ∧ effective_ttl ttl (some 0) = effective_ttl ttl none
  ∧ update_target_record_value ⟨tr, hz, none, a, some a, some 0⟩ none =
      [Effect.change_resource_record_sets hz ⟨tr, "A", 60, [a]⟩] := by
  refine ⟨?_, ?_, ?_⟩
  · simp [effective_ttl, py_truthy_int]
  · cases ttl with
    | none => simp [effective_ttl, py_truthy_int]
    | some t => simp [effective_ttl, py_truthy_int]
  · have heff : effective_ttl none (some 0) = 60 := by decide
    have hneed : needs_update ⟨tr, hz, none, a, some a, some 0⟩ 60 = true := by
      simp [needs_update]
    simp [update_target_record_value, heff, hneed, py_truthy_str]

/-- Writing back the effective TTL makes a fixed point: recomputing the
effective TTL against the written value returns it unchanged. -/
theorem effective_ttl_stable (ttl cur : Option Int) :
    effective_ttl ttl (some (effective_ttl ttl cur)) = effective_ttl ttl cur := by
  cases ttl with
  | some t =>
    by_cases ht : t = 0
    · subst ht
      cases cur with
      | none => decide
      | some c =>
        by_cases hc : c = 0
        · subst hc; decide
        · simp [effective_ttl, py_truthy_int, hc]
    · simp [effective_ttl, py_truthy_int, ht]
  | none =>
    cases cur with
    | none => decide
    | some c =>
      by_cases hc : c = 0
      · subst hc; decide
      · simp [effective_ttl, py_truthy_int, hc]

/-- C6: reconciliation is idempotent: after folding the first pass's write
(if any) back into the external record state, a second pass with the same
public address and the same TTL override computes needs_update = false and
emits no effect; and a first pass that emitted nothing leaves the external
state untouched. -/
theorem reconcile_idempotent (s : ReconcilerState) (ttl : Option Int) :
    needs_update (run_reconcile s ttl)
      (effective_ttl ttl (run_reconcile s ttl).current_ttl) = false
  ∧ update_target_record_value (run_reconcile s ttl) ttl = []
  ∧ (update_target_record_value s ttl = [] → run_reconcile s ttl = s) := by
  by_cases h : needs_update s (effective_ttl ttl s.current_ttl)
  · have hrun : run_reconcile s ttl =
        { s with current_ip := some s.actual_ip,
                 current_ttl := some (effective_ttl ttl s.current_ttl) } := by
      simp [run_reconcile, update_target_record_value, h, apply_effects, is_write]
    have hstable := effective_ttl_stable ttl s.current_ttl
    have hneed2 : needs_update (run_reconcile s ttl)
        (effective_ttl ttl (run_reconcile s ttl).current_ttl) = false := by
      rw [hrun]
      simp [needs_update, hstable]
    refine ⟨hneed2, ?_, ?_⟩
    · exact (update_effects_shape _ ttl).2.mpr hneed2
    · intro hemp
      exact absurd hemp (by simp [update_target_record_value, h])
  · have hemp : update_target_record_value s ttl = [] := by
      simp only [Bool.not_eq_true] at h
      exact (update_effects_shape s ttl).2.mpr h
    have hrun : run_reconcile s ttl = s := by
      simp [run_reconcile, hemp, apply_effects]
    refine ⟨?_, ?_, fun _ => hrun⟩
    · rw [hrun]
      simpa using h
    · rw [hrun]
      exact hemp

/-- Witness for C6: an up-to-date record leaves the external state
untouched. -/
theorem reconcile_idempotent_witness :
    run_reconcile ⟨"host.example.com", "Z1", none, "1.2.3.4", some "1.2.3.4", some 300⟩ none =
      ⟨"host.example.com", "Z1", none, "1.2.3.4", some "1.2.3.4", some 300⟩ :=
  (reconcile_idempotent
    ⟨"host.example.com", "Z1", none, "1.2.3.4", some "1.2.3.4", some 300⟩ none).2.2 (by decide)

/-- C7: the SNS notification is emitted exactly once iff the write was
issued and a topic is configured (truthy sns_arn), never otherwise; and in
the emitted effect order every write precedes every notification. -/
theorem notify_exactly_on_write (s : ReconcilerState) (ttl : Option Int) :
    (update_target_record_value s ttl).countP is_notify =
      (if (update_target_record_value s ttl).any is_write && py_truthy_str s.sns_arn
        then 1 else 0)
  ∧ (update_target_record_value s ttl).filter (fun e => is_write e || is_notify e) =
      (update_target_record_value s ttl).filter is_write ++
        (update_target_record_value s ttl).filter is_notify := by
  by_cases h : needs_update s (effective_ttl ttl s.current_ttl)
  · by_cases hs : py_truthy_str s.sns_arn
    · constructor
      · simp [update_target_record_value, h, hs, is_write, is_notify, List.countP_cons]
      · simp [update_target_record_value, h, hs, is_write, is_notify, List.filter]
    · constructor
      · simp [update_target_record_value, h, hs, is_write, is_notify, List.countP_cons]
      · simp [update_target_record_value, h, hs, is_write, is_notify, List.filter]
  · constructor
    · simp [update_target_record_value, h]
    · simp [update_target_record_value, h]

/-- Unfolding of last_match over a cons cell: a matching head is kept only
when no later record matches. -/
theorem last_match_cons (target : String) (x : RecordSet) (xs : List RecordSet) :
    last_match target (x :: xs) =
      (match last_match target xs with
       | none => if matches_target target x then some x else none
       | some y => some y) := by
  by_cases hm : matches_target target x
  · simp only [last_match, List.filter_cons, hm, if_true, List.reverse_cons]
    cases h2 : (xs.filter (matches_target target)).reverse with
    | nil => simp [last_match, h2, hm]
    | cons y ys => simp [last_match, h2]
  · simp only [last_match, List.filter_cons, hm, if_false]
    cases h2 : (xs.filter (matches_target target)).reverse with
    | nil => simp [last_match, h2, hm]
    | cons y ys => simp [last_match, h2]

/-- The overwrite-on-match scan of get_current_record computes the data of
the last matching record, for any starting accumulator. -/
theorem record_scan_foldl (target : String) :
    ∀ (l : List RecordSet) (init : List ResourceRecord × Option Int),
      l.foldl
          (fun acc r => if matches_target target r then (r.ResourceRecords, some r.TTL) else acc)
          init =
        (match last_match target l with
         | none => init
         | some r => (r.ResourceRecords, some r.TTL))
  | [], init => by simp [last_match]
  | x :: xs, init => by
    rw [List.foldl_cons, record_scan_foldl target xs, last_match_cons]
    by_cases hm : matches_target target x
    · cases h2 : last_match target xs with
      | none => simp [h2, hm]
      | some y => simp [h2]
    · cases h2 : last_match target xs with
      | none => simp [h2, hm]
      | some y => simp [h2]

/-- record_scan restated through the last matching record. -/
theorem record_scan_eq (target : String) (l : List RecordSet) :
    record_scan target l =
      (match last_match target l with
       | none => (([] : List ResourceRecord), (none : Option Int))
       | some r => (r.ResourceRecords, some r.TTL)) :=
  record_scan_foldl target l ([], none)

/-- C4 counterexample: a listing holding two A records for the same name,
one target value each: the claim demands the ambiguous-record failure, but
the scan lets the later record overwrite the earlier one and the function
returns its value and TTL without error. -/
theorem duplicate_records_no_error_cex :
    (([⟨"host.example.com.", "A", 300, [⟨"1.1.1.1"⟩]⟩,
       ⟨"host.example.com.", "A", 200, [⟨"2.2.2.2"⟩]⟩] : List RecordSet).countP
        (matches_target "host.example.com") = 2)
  ∧ get_current_record "host.example.com"
      [⟨"host.example.com.", "A", 300, [⟨"1.1.1.1"⟩]⟩,
       ⟨"host.example.com.", "A", 200, [⟨"2.2.2.2"⟩]⟩] =
      Except.ok (some "2.2.2.2", some 200) := by
  decide

/-- C4 (amended): get_current_record considers only the last listing entry
whose normalised name matches the target and whose type is A: it reports
the record absent (both components None) when no entry matches; fails with
the ambiguous-record error exactly when that last entry carries more than
one target value; returns its single value and TTL when it carries exactly
one; and returns (None, its TTL) when it carries none.  The function is a
pure read returning a value, with no write effect. -/
theorem get_current_record_cases (target : String) (l : List RecordSet) :
    (last_match target l = none → get_current_record target l = Except.ok (none, none))
  ∧ (∀ r, last_match target l = some r →
      ((1 < r.ResourceRecords.length →
          get_current_record target l = Except.error (RecordError.invalidRecordTarget target))
        ∧ (r.ResourceRecords = [] →
            get_current_record target l = Except.ok (none, some r.TTL))
        ∧ (∀ v, r.ResourceRecords = [v] →
            get_current_record target l = Except.ok (some v.Value, some r.TTL)))) := by
  constructor
  · intro hnone
    simp [get_current_record, record_scan_eq, hnone]
  · intro r hr
    refine ⟨?_, ?_, ?_⟩
    · intro hlen
      simp [get_current_record, record_scan_eq, hr, hlen]
    · intro hrr
      simp [get_current_record, record_scan_eq, hr, hrr]
    · intro v hrr
      simp [get_current_record, record_scan_eq, hr, hrr]

/-- Witness for C4 (amended): a single matching record with one value is
returned as that value and its TTL. -/
theorem get_current_record_cases_witness :
    get_current_record "host.example.com"
      [⟨"host.example.com.", "A", 300, [⟨"9.9.9.9"⟩]⟩] =
      Except.ok (some "9.9.9.9", some 300) :=
  ((get_current_record_cases "host.example.com"
      [⟨"host.example.com.", "A", 300, [⟨"9.9.9.9"⟩]⟩]).2
    ⟨"host.example.com.", "A", 300, [⟨"9.9.9.9"⟩]⟩ (by decide)).2.2 ⟨"9.9.9.9"⟩ (by decide)

/-- A failed attempt with retry budget remaining is consumed without
aborting: the loop moves to the next response. -/
theorem get_public_ip_aux_step (responses : Nat → String) (t b : Nat)
    (h : valid_public_ip (stripNewlines (responses t)) = false) :
    get_public_ip_aux responses t (b + 1) = get_public_ip_aux responses (t + 1) b := by
  rw [get_public_ip_aux]
  simp [h]

/-- The retry loop fails iff every attempt in its window is invalid. -/
theorem get_public_ip_aux_error_iff (responses : Nat → String) :
    ∀ (b t : Nat),
      (get_public_ip_aux responses t b = Except.error () ↔
        ∀ s, t ≤ s → s ≤ t + b → valid_public_ip (stripNewlines (responses s)) = false)
  | 0, t => by
    rw [get_public_ip_aux]
    by_cases h : valid_public_ip (stripNewlines (responses t)) = true
    · simp only [h, if_true]
      constructor
      · intro hc; exact absurd hc (by simp)
      · intro hall
        have hft := hall t le_rfl (by omega)
        simp [hft] at h
    · rw [Bool.not_eq_true] at h
      simp only [h, Bool.false_eq_true, if_false]
      constructor
      · intro _ s hs1 hs2
        have hst : s = t := by omega
        subst hst
        exact h
      · intro _; trivial
  | b + 1, t => by
    by_cases h : valid_public_ip (stripNewlines (responses t)) = true
    · rw [get_public_ip_aux]
      simp only [h, if_true]
      constructor
      · intro hc; exact absurd hc (by simp)
      · intro hall
        have hft := hall t le_rfl (by omega)
        simp [hft] at h
    · rw [Bool.not_eq_true] at h
      rw [get_public_ip_aux_step responses t b h]
      rw [get_public_ip_aux_error_iff responses b (t + 1)]
      constructor
      · intro hall s hs1 hs2
        rcases Nat.eq_or_lt_of_le hs1 with heq | hlt
        · subst heq; exact h
        · exact hall s (by omega) (by omega)
      · intro hall s hs1 hs2
        exact hall s (by omega) (by omega)

/-- The retry loop returns the first valid candidate of its window. -/
theorem get_public_ip_aux_first_valid (responses : Nat → String) :
    ∀ (b t u : Nat), t ≤ u → u ≤ t + b →
      valid_public_ip (stripNewlines (responses u)) = true →
      (∀ s, t ≤ s → s < u → valid_public_ip (stripNewlines (responses s)) = false) →
      get_public_ip_aux responses t b = Except.ok (stripNewlines (responses u))
  | 0, t, u => by
    intro ht hu hv _
    have hut : u = t := by omega
    subst hut
    rw [get_public_ip_aux]
    simp [hv]
  | b + 1, t, u => by
    intro ht hu hv hprev
    rcases Nat.eq_or_lt_of_le ht with heq | hlt
    · subst heq
      rw [get_public_ip_aux]
      simp [hv]
    · have hft : valid_public_ip (stripNewlines (responses t)) = false :=
        hprev t le_rfl hlt
      rw [get_public_ip_aux_step responses t b hft]
      exact get_public_ip_aux_first_valid responses b (t + 1) u (by omega) (by omega) hv
        (fun s hs1 hs2 => hprev s (by omega) hs2)

/-- C5: with max_attempts at least 1, get_public_ip returns the first
response (after trimming) that parses as an IP literal and is globally
routable; an invalid response with budget remaining is consumed as one
failed attempt without aborting; and the resolver fails (the fatal
ValueError) exactly when all max_attempts attempts were invalid. -/
theorem get_public_ip_first_valid (responses : Nat → String) (m : Nat) (hm : 1 ≤ m) :
    (get_public_ip responses m = Except.error () ↔
      ∀ t, 1 ≤ t → t ≤ m → valid_public_ip (stripNewlines (responses t)) = false)
  ∧ (∀ t, 1 ≤ t → t ≤ m → valid_public_ip (stripNewlines (responses t)) = true →
      (∀ s, 1 ≤ s → s < t → valid_public_ip (stripNewlines (responses s)) = false) →
      get_public_ip responses m = Except.ok (stripNewlines (responses t)))
  ∧ (∀ t b, valid_public_ip (stripNewlines (responses t)) = false →
      get_public_ip_aux responses t (b + 1) = get_public_ip_aux responses (t + 1) b) := by
  refine ⟨?_, ?_, fun t b h => get_public_ip_aux_step responses t b h⟩
  · unfold get_public_ip
    rw [get_public_ip_aux_error_iff responses (m - 1) 1]
    constructor
    · intro hall t h1 h2; exact hall t h1 (by omega)
    · intro hall s h1 h2; exact hall s h1 (by omega)
  · intro t h1 h2 hv hprev
    unfold get_public_ip
    exact get_public_ip_aux_first_valid responses (m - 1) 1 t h1 (by omega) hv
      (fun s hs1 hs2 => hprev s hs1 hs2)

/-- Witness for C5: the private candidate 127.0.0.1 consumes attempt 1 and
the newline-wrapped global 8.8.8.8 is returned on attempt 2. -/
theorem get_public_ip_first_valid_witness :
    get_public_ip (fun t => if t = 1 then "127.0.0.1" else "8.8.8.8\n") 2 =
      Except.ok "8.8.8.8" := by
  have h := (get_public_ip_first_valid
      (fun t => if t = 1 then "127.0.0.1" else "8.8.8.8\n") 2 (by decide)).2.1 2
    (by decide) (by decide) (by decide)
    (fun s h1 h2 => by
      have hs : s = 1 := by omega
      subst hs
      decide)
  rwa [show stripNewlines ((fun t : Nat =>
      if t = 1 then "127.0.0.1" else "8.8.8.8\n") 2) = "8.8.8.8" from by decide] at h

/-- dropWhile jumps over a leading block of the dropped character. -/
theorem dropWhile_replicate_append (c : Char) :
    ∀ (m : Nat) (l : List Char),
      (List.replicate m c ++ l).dropWhile (fun x => x = c) = l.dropWhile (fun x => x = c)
  | 0, l => rfl
  | m + 1, l => by
    rw [List.replicate_succ, List.cons_append, List.dropWhile_cons]
    simp [dropWhile_replicate_append c m l]

/-- dropWhile is the identity when the head is not the dropped character. -/
theorem dropWhile_eq_self_of_head (c : Char) (l : List Char)
    (h : l.head? ≠ some c) : l.dropWhile (fun x => x = c) = l := by
  cases l with
  | nil => rfl
  | cons x xs =>
    have hx : x ≠ c := by
      intro hxc; exact h (by simp [hxc])
    rw [List.dropWhile_cons]
    simp [hx]

/-- Every character list is a leading block of the dropped character
followed by its dropWhile remainder, whose head differs. -/
theorem dropWhile_decomposition (c : Char) :
    ∀ l : List Char, ∃ a : Nat,
      l = List.replicate a c ++ l.dropWhile (fun x => x = c)
      ∧ (l.dropWhile (fun x => x = c)).head? ≠ some c
  | [] => ⟨0, by simp⟩
  | x :: xs => by
    by_cases hx : x = c
    · obtain ⟨a, ha, hh⟩ := dropWhile_decomposition c xs
      have hdw : (x :: xs).dropWhile (fun y => y = c) = xs.dropWhile (fun y => y = c) := by
        rw [List.dropWhile_cons]; simp [hx]
      refine ⟨a + 1, ?_, ?_⟩
      · rw [hdw, List.replicate_succ, List.cons_append, hx]
        exact congrArg (List.cons c) ha
      · rw [hdw]; exact hh
    · have hdw : (x :: xs).dropWhile (fun y => y = c) = x :: xs := by
        rw [List.dropWhile_cons]; simp [hx]
      exact ⟨0, by rw [hdw]; simp, by rw [hdw]; simp [hx]⟩

/-- Full characterisation of the single-character strip: the input splits
as leading block, stripped core, trailing block, and the core avoids the
stripped character on both ends. -/
theorem pyStripChar_decomposition (c : Char) (s : String) :
    ∃ a b : Nat,
      s.data = List.replicate a c ++ (pyStripChar c s).data ++ List.replicate b c
      ∧ (pyStripChar c s).data.head? ≠ some c
      ∧ (pyStripChar c s).data.getLast? ≠ some c := by
  obtain ⟨a, ha, hh⟩ := dropWhile_decomposition c s.data
  obtain ⟨b, hb, hh2⟩ :=
    dropWhile_decomposition c (s.data.dropWhile (fun x => x = c)).reverse
  have hcore : (pyStripChar c s).data =
      ((s.data.dropWhile (fun x => x = c)).reverse.dropWhile (fun x => x = c)).reverse := rfl
  have hmk : s.data.dropWhile (fun x => x = c) =
      ((s.data.dropWhile (fun x => x = c)).reverse.dropWhile (fun x => x = c)).reverse ++
        List.replicate b c := by
    have h3 := congrArg List.reverse hb
    rw [List.reverse_reverse, List.reverse_append, List.reverse_replicate] at h3
    exact h3
  refine ⟨a, b, ?_, ?_, ?_⟩
  · conv_lhs => rw [ha, hmk]
    rw [hcore, List.append_assoc]
  · rw [hcore]
    cases hkr : ((s.data.dropWhile (fun x => x = c)).reverse.dropWhile
        (fun x => x = c)).reverse with
    | nil => simp
    | cons y ys =>
      rw [hkr] at hmk
      rw [hmk] at hh
      simpa using hh
  · rw [hcore, List.getLast?_reverse]
    exact hh2

/-- Stripping a newline-wrapped core recovers the core exactly, when the
core avoids the stripped character at both ends. -/
theorem pyStripChar_wrap (c : Char) (l : List Char) (m n : Nat)
    (hne : l ≠ []) (h1 : l.head? ≠ some c) (h2 : l.getLast? ≠ some c) :
    pyStripChar c (String.mk (List.replicate m c ++ l ++ List.replicate n c)) = String.mk l := by
  have hfront : (List.replicate m c ++ l ++ List.replicate n c).dropWhile (fun x => x = c)
      = l ++ List.replicate n c := by
    rw [List.append_assoc, dropWhile_replicate_append]
    rw [show (l ++ List.replicate n c).dropWhile (fun x => x = c)
        = l ++ List.replicate n c from ?_]
    apply dropWhile_eq_self_of_head
    cases l with
    | nil => exact absurd rfl hne
    | cons y ys => simpa using h1
  unfold pyStripChar
  congr 1
  rw [show (String.mk (List.replicate m c ++ l ++ List.replicate n c)).data =
      List.replicate m c ++ l ++ List.replicate n c from rfl]
  rw [hfront, List.reverse_append, List.reverse_replicate, dropWhile_replicate_append]
  rw [dropWhile_eq_self_of_head c l.reverse (by rw [List.head?_reverse]; exact h2)]
  exact List.reverse_reverse l

/-- C9 counterexample: the code strips only newline characters, not all
surrounding whitespace: a global IP with a leading space keeps the space,
fails to parse, and exhausts every attempt, although the same IP without
the space is valid — contradicting the claim that any whitespace-wrapped
valid IP is accepted. -/
theorem space_not_trimmed_cex :
    stripNewlines " 8.8.8.8\n" = " 8.8.8.8"
  ∧ valid_public_ip " 8.8.8.8" = false
  ∧ valid_public_ip "8.8.8.8" = true
  ∧ get_public_ip (fun _ => " 8.8.8.8\n") 3 = Except.error () := by
  decide

/-- C9 (amended): the resolver trims only newline characters from the
response body before parsing: the tested candidate is the body with its
leading and trailing newline blocks removed and nothing else, and a valid
global IP wrapped in newlines only is accepted on that attempt. -/
theorem newline_trim_only (s : String) (m n : Nat)
    (h1 : s.data.head? ≠ some '\n') (h2 : s.data.getLast? ≠ some '\n')
    (hv : valid_public_ip s = true) :
    get_public_ip
        (fun _ => String.mk (List.replicate m '\n' ++ s.data ++ List.replicate n '\n')) 1 =
      Except.ok s
  ∧ ∀ t : String, ∃ a b : Nat,
      t.data = List.replicate a '\n' ++ (stripNewlines t).data ++ List.replicate b '\n'
      ∧ (stripNewlines t).data.head? ≠ some '\n'
      ∧ (stripNewlines t).data.getLast? ≠ some '\n' := by
  constructor
  · have hne : s.data ≠ [] := by
      intro hx
      have hs : s = "" := by
        cases s with
        | mk d =>
          have hd : d = [] := hx
          rw [hd]
      rw [hs] at hv
      exact absurd hv (by decide)
    have hstrip : stripNewlines
        (String.mk (List.replicate m '\n' ++ s.data ++ List.replicate n '\n')) = s := by
      unfold stripNewlines
      rw [pyStripChar_wrap '\n' s.data m n hne h1 h2]
    have hstrip2 : stripNewlines
        (String.mk (List.replicate m '\n' ++ (s.data ++ List.replicate n '\n'))) = s := by
      rw [← List.append_assoc]
      exact hstrip
    unfold get_public_ip
    rw [get_public_ip_aux]
    simp [hstrip2, hv]
  · intro t
    exact pyStripChar_decomposition '\n' t

/-- Witness for C9 (amended): 8.8.8.8 wrapped in one newline on each side
is accepted on the first attempt. -/
theorem newline_trim_only_witness :
    get_public_ip
        (fun _ => String.mk (List.replicate 1 '\n' ++ "8.8.8.8".data ++ List.replicate 1 '\n'))
        1 =
      Except.ok "8.8.8.8"
  ∧ ∀ t : String, ∃ a b : Nat,
      t.data = List.replicate a '\n' ++ (stripNewlines t).data ++ List.replicate b '\n'
      ∧ (stripNewlines t).data.head? ≠ some '\n'
      ∧ (stripNewlines t).data.getLast? ≠ some '\n' :=
  newline_trim_only "8.8.8.8" 1 1 (by decide) (by decide) (by decide)

/-- C8 counterexample: publish_to_sns does raise to its caller: the
ValueError on a falsy target is raised before the try block, and an ARN
with fewer than four colon-separated fields raises an uncaught IndexError
from the region lookup — contradicting the claim that it never raises. -/
theorem publish_to_sns_raises_cex :
    publish_to_sns true (some "arn:aws") "msg" =
      Except.error "IndexError: list index out of range"
  ∧ publish_to_sns true (some "") "msg" =
      Except.error "ValueError: publish_to_sns: sns_arn was not provided"
  ∧ publish_to_sns true none "msg" =
      Except.error "ValueError: publish_to_sns: sns_arn was not provided" := by
  decide

/-- C8 (amended): publish_to_sns raises exactly on a falsy target or an
ARN whose colon-split has no fourth field; on a well-formed ARN it never
raises — a delivery failure is caught and logged — and the delivery region
is the fourth colon-separated field of the ARN, derived from the ARN
alone. -/
theorem publish_to_sns_region_and_swallow (ok : Bool) (arn msg region : String)
    (h1 : arn ≠ "") (h2 : (pySplit arn ':').get? 3 = some region) :
    publish_to_sns ok (some arn) msg =
      Except.ok (if ok then SnsOutcome.published region msg
                 else SnsOutcome.publish_failed_logged region msg)
  ∧ (∀ (ok2 : Bool) (m2 : String), ∃ e, publish_to_sns ok2 none m2 = Except.error e)
  ∧ (∀ (ok2 : Bool) (m2 a2 : String),
      a2 = "" ∨ (pySplit a2 ':').get? 3 = none →
      ∃ e, publish_to_sns ok2 (some a2) m2 = Except.error e) := by
  refine ⟨?_, ?_, ?_⟩
  · have ht : py_truthy_str (some arn) = true := by
      simp [py_truthy_str, h1]
    rw [List.get?_eq_getElem?] at h2
    cases ok with
    | true => simp [publish_to_sns, ht, h2]
    | false => simp [publish_to_sns, ht, h2]
  · intro ok2 m2
    exact ⟨"ValueError: publish_to_sns: sns_arn was not provided", rfl⟩
  · intro ok2 m2 a2 hcase
    by_cases ha : a2 = ""
    · refine ⟨"ValueError: publish_to_sns: sns_arn was not provided", ?_⟩
      subst ha
      simp [publish_to_sns, py_truthy_str]
    · rcases hcase with h | h
      · exact absurd h ha
      · refine ⟨"IndexError: list index out of range", ?_⟩
        have ht : py_truthy_str (some a2) = true := by
          simp [py_truthy_str, ha]
        rw [List.get?_eq_getElem?] at h
        simp [publish_to_sns, ht, h]

/-- Witness for C8 (amended): a well-formed six-field ARN with a failing
delivery returns normally with the failure swallowed, in region us-east-1
taken from the fourth ARN field. -/
theorem publish_to_sns_region_and_swallow_witness :
    publish_to_sns false (some "arn:aws:sns:us-east-1:123456789012:mytopic") "record changed" =
      Except.ok (SnsOutcome.publish_failed_logged "us-east-1" "record changed") := by
  simpa using (publish_to_sns_region_and_swallow false
    "arn:aws:sns:us-east-1:123456789012:mytopic" "record changed" "us-east-1"
    (by decide) (by decide)).1
